import Mathlib

/-!
Verification development for the DentAI report/document pipeline
(`src/app/pdf_generator.py` and `src/src/pdf-generator.py`).

Strings are modelled as lists of characters (`Str`), so that the Python
string operations the generators use (`split`, `join`, `strip`, `lstrip`,
`startswith`) become explicit executable functions on lists. Python's
`dict` (insertion-ordered, assignment keeps the position of an existing
key and overwrites its value) is modelled as an association list with the
update function `pyDictSet`. The ReportLab layer is modelled at the level
the generators drive it: a document is the list of flowable elements
handed to `doc.build`, together with the per-page footer callbacks
(`onFirstPage` / `onLaterPages`); the footer callback is modelled by the
list of strings it draws on the canvas for a given page number.
-/

namespace DentAI

/-- A Python string, modelled as its list of characters. -/
abbrev Str := List Char

/-- Literal strings of the source, as character lists. -/
def lit (s : String) : Str := s.data

/-- Python's default `str.strip()` class of stripped characters
(whitespace). -/
def pyIsSpace (c : Char) : Bool := c.isWhitespace

/-- Remove the longest suffix whose characters all satisfy `p`
(the right half of Python's `strip`/`rstrip`). -/
def rdrop (p : Char → Bool) : Str → Str
  | [] => []
  | c :: t =>
    match rdrop p t with
    | [] => if p c then [] else [c]
    | r => c :: r

/-- Python `line.strip()`: drop leading and trailing whitespace. -/
def stripWs (s : Str) : Str := rdrop pyIsSpace (s.dropWhile pyIsSpace)

/-- Python `line.lstrip('#')`: drop leading `'#'` characters. -/
def lstripHash (s : Str) : Str := s.dropWhile (· == '#')

/-- Python `line.strip('#')`: drop leading and trailing `'#'` characters. -/
def stripHash (s : Str) : Str := rdrop (· == '#') (s.dropWhile (· == '#'))

/-- Python `s.startswith('#')`. -/
def startsWithHash : Str → Bool
  | [] => false
  | c :: _ => c == '#'

/-- Python `report_content.split('\n')`. -/
def splitLines (s : Str) : List Str := s.splitOn '\n'

/-- Python `'\n'.join(lines)`. -/
def joinLines (ls : List Str) : Str := [('\n' : Char)].intercalate ls

/-- Python `content.split('\n\n')` (leftmost, non-overlapping occurrences
of the two-character separator). -/
def splitParagraphs : Str → List Str
  | [] => [[]]
  | '\n' :: '\n' :: rest => [] :: splitParagraphs rest
  | c :: rest =>
    match splitParagraphs rest with
    | [] => [[c]]
    | y :: ys => (c :: y) :: ys

/-! ## The Section Parser (`_parse_report_sections`), both copies

`src/src/pdf-generator.py` lines 88–106 and `src/app/pdf_generator.py`
lines 147–184 share the same loop shape and differ only in the heading
test and the heading-title extraction; the loop is embedded once,
parameterised by those two functions, and each copy instantiates it. -/

/-- The loop state of `_parse_report_sections`: the committed `sections`
dict, the `current_section` title, and the accumulated `current_content`
lines. -/
structure ParseSt where
  sections : List (Str × Str)
  current : Str
  content : List Str

/-- Python dict assignment `m[k] = v`: if the key is present its value is
overwritten in place (insertion position kept), otherwise the pair is
appended. -/
def pyDictSet (m : List (Str × Str)) (k v : Str) : List (Str × Str) :=
  if k ∈ m.map Prod.fst then
    m.map fun p => if p.1 = k then (k, v) else p
  else m ++ [(k, v)]

/-- `if current_content: sections[current_section] = '\n'.join(current_content)` —
the commit step both copies perform on a heading line and after the scan. -/
def commitSection (st : ParseSt) : List (Str × Str) :=
  if st.content.isEmpty then st.sections
  else pyDictSet st.sections st.current (joinLines st.content)

/-- Heading test of the `src/src/pdf-generator.py` copy:
`line.strip().startswith('#')`. -/
def isHeadingSrc (line : Str) : Bool := startsWithHash (stripWs line)

/-- Heading-title extraction of the `src/src/pdf-generator.py` copy:
`line.lstrip('#').strip()`. -/
def headingTitleSrc (line : Str) : Str := stripWs (lstripHash line)

/-- Heading test of the `src/app/pdf_generator.py` copy:
`line.startswith('#')`. -/
def isHeadingApp (line : Str) : Bool := startsWithHash line

/-- Heading-title extraction of the `src/app/pdf_generator.py` copy:
`line.strip('#').strip()`. -/
def headingTitleApp (line : Str) : Str := stripWs (stripHash line)

/-- One iteration of the `for line in lines` loop of
`_parse_report_sections`, parameterised by the heading test `isH` and the
title extraction `ttl` in which the two copies differ. -/
def parseStep (isH : Str → Bool) (ttl : Str → Str) (st : ParseSt) (line : Str) : ParseSt :=
  if isH line then
    { sections := commitSection st, current := ttl line, content := [] }
  else
    { st with content := st.content ++ [line] }

/-- `_parse_report_sections` generic in the heading test and title
extraction: scan the lines, commit the trailing content, and fall back to
`{"Findings": report_content}` when the dict ends up empty. -/
def parseReportSections (isH : Str → Bool) (ttl : Str → Str) (input : Str) :
    List (Str × Str) :=
  let final := (splitLines input).foldl (parseStep isH ttl) ⟨[], lit "Findings", []⟩
  let sections := commitSection final
  if sections.isEmpty then [(lit "Findings", input)] else sections

/-- `PDFGenerator._parse_report_sections` of `src/src/pdf-generator.py`
(lines 88–106). -/
def parseSrc : Str → List (Str × Str) :=
  parseReportSections isHeadingSrc headingTitleSrc

/-- `PDFGenerator._parse_report_sections` of `src/app/pdf_generator.py`
(lines 147–184). -/
def parseApp : Str → List (Str × Str) :=
  parseReportSections isHeadingApp headingTitleApp

/-! ## The Document Assembler (`PDFGenerator`), element level

Both copies hand ReportLab the same flowables; a flowable is modelled by
the `Element` constructors the generators actually create (styled
paragraph, spacer, table, image). The canvas footer callback is modelled
by the list of strings it draws for a given page number. -/

/-- The paragraph styles the generators register and use. -/
inductive Style where
  | reportTitle
  | sectionHeading
  | reportText
  | footer
  | normal
  deriving DecidableEq, Repr

/-- A ReportLab flowable as the generators construct it. -/
inductive Element where
  | par (style : Style) (text : Str)
  | spacer (w h : Nat)
  | table (rows : List (List Str))
  | image (path : Str) (w h : Nat)
  deriving DecidableEq, Repr

/-- `PDFGenerator._create_header`: optional logo (only when `logo_path`
is truthy and `os.path.exists` holds — the latter an external fact,
passed as `logoOk`), clinic name in the title style, and the
`"Report Generated: ..."` timestamp line. `now` is the value of
`datetime.now().strftime('%B %d, %Y %H:%M')` at the moment of the call.
Identical in both copies (the `doc` parameter of the app copy is
unused). -/
def createHeader (logoPath : Option Str) (logoOk : Bool) (clinicName : Str)
    (now : Str) : List Element :=
  (if logoPath.getD [] ≠ [] ∧ logoOk then
    [Element.image (logoPath.getD []) 100 50, Element.spacer 1 10]
  else []) ++
  [Element.par .reportTitle clinicName, Element.spacer 1 10,
   Element.par .normal (lit "Report Generated: " ++ now), Element.spacer 1 20]

/-- The patient dict the callers pass (`Dict[str, Any]`): a field absent
from the dict is `none`. Values are modelled by their display string
(`str()` on a string is the identity; the callers in
`src/ui/pages/analysis.py` always populate every key from form input). -/
structure PatientInfo where
  name : Option Str
  age : Option Str
  gender : Option Str
  complaint : Option Str
  medical_history : Option Str

/-- The rows of the patient-information table, from
`_create_patient_info_section`: `patient_info.get(key, 'N/A')` for each
of the five fields (the age value additionally passes through `str`,
which on the modelled display string is the identity). Identical in both
copies. -/
def patientRows (pi : PatientInfo) : List (List Str) :=
  [[lit "Name:", pi.name.getD (lit "N/A")],
   [lit "Age:", pi.age.getD (lit "N/A")],
   [lit "Gender:", pi.gender.getD (lit "N/A")],
   [lit "Primary Complaint:", pi.complaint.getD (lit "N/A")],
   [lit "Medical History:", pi.medical_history.getD (lit "N/A")]]

/-- `PDFGenerator._create_patient_info_section`: the "Patient
Information" heading, the five-row table, and a spacer. -/
def createPatientInfoSection (pi : PatientInfo) : List Element :=
  [Element.par .sectionHeading (lit "Patient Information"),
   Element.table (patientRows pi), Element.spacer 1 15]

/-- Paragraph filter of the app copy's `_create_findings_section`
(lines 126–145): split the body on `'\n\n'` and keep each paragraph
whose `strip()` is non-empty, rendered unstripped. -/
def sectionParagraphsApp (content : Str) : List Str :=
  (splitParagraphs content).filter (fun p => !(stripWs p).isEmpty)

/-- Paragraph filter of the src copy's `_create_findings_section`
(lines 108–116): `filter(None, (p.strip() for p in content.split('\n\n')))` —
each paragraph is stripped first and kept when non-empty. -/
def sectionParagraphsSrc (content : Str) : List Str :=
  ((splitParagraphs content).map stripWs).filter (fun p => !p.isEmpty)

/-- What one iteration of the `for title, content in sections.items()`
loop of `_create_findings_section` appends: the title as a heading, one
text paragraph per kept paragraph of the body, then a spacer. -/
def sectionBlock (paras : Str → List Str) (sec : Str × Str) : List Element :=
  Element.par .sectionHeading sec.1 ::
    ((paras sec.2).map (Element.par .reportText) ++ [Element.spacer 1 10])

/-- The `for title, content in sections.items()` loop of
`_create_findings_section`, parameterised by the per-copy paragraph
filter. -/
def renderSections (paras : Str → List Str) (sections : List (Str × Str)) :
    List Element :=
  sections.foldl (fun acc sec => acc ++ sectionBlock paras sec) []

/-- `PDFGenerator._create_findings_section` of `src/src/pdf-generator.py`. -/
def createFindingsSrc (reportContent : Str) : List Element :=
  renderSections sectionParagraphsSrc (parseSrc reportContent)

/-- `PDFGenerator._create_findings_section` of `src/app/pdf_generator.py`. -/
def createFindingsApp (reportContent : Str) : List Element :=
  renderSections sectionParagraphsApp (parseApp reportContent)

/-- The three unchecked approval option rows of
`_create_signature_section`. -/
def approvalRows : List (List Str) :=
  [[lit "☐", lit "Approve the findings as presented"],
   [lit "☐", lit "Approve with modifications noted below"],
   [lit "☐", lit "Reject the findings"]]

/-- `PDFGenerator._create_signature_section` (identical in both copies):
the "Approval" heading, the confirmation sentence, the option rows, the
notes area, and the two labelled signature lines. -/
def createSignatureSection : List Element :=
  [Element.par .sectionHeading (lit "Approval"),
   Element.par .reportText
     (lit "I confirm that I have reviewed this AI-generated report and:"),
   Element.spacer 1 20,
   Element.table approvalRows,
   Element.spacer 1 20,
   Element.par .reportText (lit "Notes:"),
   Element.spacer 1 40,
   Element.par .normal (List.replicate 50 '_'),
   Element.par .footer (lit "Doctor's Signature"),
   Element.spacer 1 15,
   Element.par .normal (List.replicate 50 '_'),
   Element.par .footer (lit "Date")]

/-- The mandatory regulatory disclaimer `_create_footer` draws on every
page (the src copy writes it as two adjacent string literals; the
concatenation is this same string). -/
def regulatoryDisclaimer : Str :=
  lit "AI-GENERATED REPORT: This report was generated with artificial intelligence and should be reviewed by a qualified dental professional before use in diagnosis or treatment."

/-- The f-string `f"Page {page_num}"` drawn right-aligned by
`_create_footer`. -/
def pageNumberText (n : Nat) : Str := lit "Page " ++ (Nat.repr n).data

/-- `PDFGenerator._create_footer` (identical in both copies), modelled by
the strings it draws on the canvas of the page numbered `n`. -/
def createFooter (n : Nat) : List Str := [pageNumberText n, regulatoryDisclaimer]

/-- What `doc.build(elements, onFirstPage=..., onLaterPages=...)` is
given: the flowables and the two per-page canvas callbacks. -/
structure BuiltDoc where
  elements : List Element
  onFirstPage : Nat → List Str
  onLaterPages : Nat → List Str

/-- ReportLab applies `onFirstPage` to page 1 and `onLaterPages` to every
subsequent page: the canvas strings drawn on page `n` of a built
document. -/
def pageOverlay (d : BuiltDoc) (n : Nat) : List Str :=
  if n = 1 then d.onFirstPage n else d.onLaterPages n

/-- The fixed closing disclaimer paragraph `generate_detailed_pdf`
appends (identical in both copies). -/
def detailedDisclaimer : Str :=
  lit "DISCLAIMER: This detailed report provides the AI system's reasoning and analysis. All findings should be independently verified by a qualified dental professional."

/-- `PDFGenerator.generate_summary_pdf` of `src/src/pdf-generator.py`
(lines 157–174): header, summary title, patient section, findings,
signature section; `_create_footer` installed on first and later
pages. -/
def generateSummaryPdfSrc (logoPath : Option Str) (logoOk : Bool)
    (pi : PatientInfo) (reportContent : Str) (clinicName : Str) (now : Str) :
    BuiltDoc :=
  { elements :=
      createHeader logoPath logoOk clinicName now ++
      [Element.par .reportTitle (lit "Dental AI Analysis - Summary Report"),
       Element.spacer 1 10] ++
      createPatientInfoSection pi ++
      createFindingsSrc reportContent ++
      createSignatureSection,
    onFirstPage := createFooter,
    onLaterPages := createFooter }

/-- `PDFGenerator.generate_detailed_pdf` of `src/src/pdf-generator.py`
(lines 176–198): header, detailed title, patient section, findings, the
closing disclaimer paragraph; `_create_footer` on every page. -/
def generateDetailedPdfSrc (logoPath : Option Str) (logoOk : Bool)
    (pi : PatientInfo) (reportContent : Str) (clinicName : Str) (now : Str) :
    BuiltDoc :=
  { elements :=
      createHeader logoPath logoOk clinicName now ++
      [Element.par .reportTitle (lit "Dental AI Analysis - Detailed Report"),
       Element.spacer 1 10] ++
      createPatientInfoSection pi ++
      createFindingsSrc reportContent ++
      [Element.spacer 1 20, Element.par .footer detailedDisclaimer],
    onFirstPage := createFooter,
    onLaterPages := createFooter }

/-- `PDFGenerator.generate_summary_pdf` of `src/app/pdf_generator.py`
(lines 243–291). -/
def generateSummaryPdfApp (logoPath : Option Str) (logoOk : Bool)
    (pi : PatientInfo) (reportContent : Str) (clinicName : Str) (now : Str) :
    BuiltDoc :=
  { elements :=
      createHeader logoPath logoOk clinicName now ++
      [Element.par .reportTitle (lit "Dental AI Analysis - Summary Report"),
       Element.spacer 1 10] ++
      createPatientInfoSection pi ++
      createFindingsApp reportContent ++
      createSignatureSection,
    onFirstPage := createFooter,
    onLaterPages := createFooter }

/-- `PDFGenerator.generate_detailed_pdf` of `src/app/pdf_generator.py`
(lines 293–343). -/
def generateDetailedPdfApp (logoPath : Option Str) (logoOk : Bool)
    (pi : PatientInfo) (reportContent : Str) (clinicName : Str) (now : Str) :
    BuiltDoc :=
  { elements :=
      createHeader logoPath logoOk clinicName now ++
      [Element.par .reportTitle (lit "Dental AI Analysis - Detailed Report"),
       Element.spacer 1 10] ++
      createPatientInfoSection pi ++
      createFindingsApp reportContent ++
      [Element.spacer 1 20, Element.par .footer detailedDisclaimer],
    onFirstPage := createFooter,
    onLaterPages := createFooter }

/-- Modelled from the spec: `DocumentOptions` (spec §3) with its
`include-signature-block` flag is absent from both `PDFGenerator` copies
under `src/` (both `generate_summary_pdf` implementations append the
signature block unconditionally); spec §4.2 step 5 says the Summary
variant's signature/approval block is "skipped entirely if
include-signature-block is false". -/
structure DocumentOptions where
  include_signature_block : Bool := true
  show_patient_id : Bool := false

/-- Modelled from the spec: the Summary-variant Document Assembler of
§4.2 honouring `DocumentOptions.include_signature_block` — identical to
`generate_summary_pdf` except that the signature/approval block is
omitted when the flag is false. -/
def generateSummaryPdfWithOptions (logoPath : Option Str) (logoOk : Bool)
    (pi : PatientInfo) (reportContent : Str) (clinicName : Str) (now : Str)
    (opts : DocumentOptions) : BuiltDoc :=
  { elements :=
      createHeader logoPath logoOk clinicName now ++
      [Element.par .reportTitle (lit "Dental AI Analysis - Summary Report"),
       Element.spacer 1 10] ++
      createPatientInfoSection pi ++
      createFindingsApp reportContent ++
      (if opts.include_signature_block then createSignatureSection else []),
    onFirstPage := createFooter,
    onLaterPages := createFooter }

/-- Scrubbing the one timestamp-dependent element: a `Normal`-styled
paragraph beginning with the `"Report Generated: "` prefix is replaced by
that fixed prefix; every other element is kept. Used to state that two
runs of a generator differ only in the embedded generation timestamp. -/
def scrubTimestamp (e : Element) : Element :=
  match e with
  | Element.par Style.normal t =>
      if (lit "Report Generated: ").isPrefixOf t then
        Element.par Style.normal (lit "Report Generated: ")
      else Element.par Style.normal t
  | e => e

/-- The value cell of row `i` of the patient-information table. -/
def patientCell (pi : PatientInfo) (i : Nat) : Str :=
  ((patientRows pi).getD i []).getD 1 []

/-- Lines on which the two parser copies behave identically: either the
line is a heading for neither copy, or it is a heading for both, spelt
with `'#'` in column 0 and with no trailing `'#'` (so both title
extractions agree). -/
def agreeingLine (l : Str) : Prop :=
  isHeadingSrc l = false ∨ (l.head? = some '#' ∧ l.getLast? ≠ some '#')

instance (l : Str) : Decidable (agreeingLine l) := by
  unfold agreeingLine
  infer_instance

/-- A heading-delimited input, structured as blocks: each block is a
heading line together with the body lines that follow it up to the next
heading (or the end of input). -/
def blockInput (blocks : List (Str × List Str)) : Str :=
  joinLines ((blocks.map fun hb => hb.1 :: hb.2).flatten)

/-- The worked example of spec §8: two headings, each with a one-line
body. -/
def exampleBlocks : List (Str × List Str) :=
  [(lit "## Findings", [lit "Possible cavity in lower left molar."]),
   (lit "## Recommendation", [lit "Follow-up X-ray advised."])]

/-- The sequence of
`sections[current_section] = '\n'.join(current_content)` commit events
the scan of `_parse_report_sections` performs, in order (the trailing
commit after the loop included), tracked over the `current_section` and
`current_content` components of the loop state. -/
def commitsAux (isH : Str → Bool) (ttl : Str → Str) :
    Str → List Str → List Str → List (Str × Str)
  | cur, content, [] =>
    if content.isEmpty then [] else [(cur, joinLines content)]
  | cur, content, l :: ls =>
    if isH l then
      (if content.isEmpty then [] else [(cur, joinLines content)]) ++
        commitsAux isH ttl (ttl l) [] ls
    else commitsAux isH ttl cur (content ++ [l]) ls

/-- The commit events of one `_parse_report_sections` scan of `input`. -/
def parseCommits (isH : Str → Bool) (ttl : Str → Str) (input : Str) :
    List (Str × Str) :=
  commitsAux isH ttl (lit "Findings") [] (splitLines input)

/-- Replaying a sequence of commit events against an initially empty
Python dict. -/
def pyDictOfCommits (l : List (Str × Str)) : List (Str × Str) :=
  l.foldl (fun m kv => pyDictSet m kv.1 kv.2) []

/-- The insertion-ordered-dict semantics of a commit sequence, stated
directly: one entry per distinct committed title, the entries ordered by
each title's first commit, and each entry holding the body of that
title's last commit (later commits overwrite earlier bodies in
place). -/
def collapseCommits : List (Str × Str) → List (Str × Str)
  | [] => []
  | (k, v) :: t =>
    (k, ((((k, v) :: t).filter fun p => decide (p.1 = k)).getLast?.getD (k, v)).2) ::
      collapseCommits (t.filter fun p => decide (p.1 ≠ k))
termination_by l => l.length
decreasing_by
  simp only [List.length_cons]
  exact Nat.lt_succ_of_le (List.length_filter_le _ _)

end DentAI

namespace DentAI

/-! ## Helper lemmas about the string primitives -/

theorem rdrop_cons_of_not {p : Char → Bool} {c : Char} (t : Str) (h : p c = false) :
    rdrop p (c :: t) = c :: rdrop p t := by
  rw [rdrop]
  cases ht : rdrop p t with
  | nil => simp [h]
  | cons r rs => rfl

theorem rdrop_eq_self {p : Char → Bool} :
    ∀ {l : Str}, (∀ c, l.getLast? = some c → p c = false) → rdrop p l = l := by
  intro l
  induction l with
  | nil => intro _; rfl
  | cons c t ih =>
    intro h
    cases t with
    | nil =>
      have hc : p c = false := h c rfl
      simp [rdrop, hc]
    | cons d u =>
      have ht : rdrop p (d :: u) = d :: u := by
        apply ih
        intro x hx
        exact h x (by rw [List.getLast?_cons_cons]; exact hx)
      rw [rdrop, ht]

theorem dropWhile_head_not {p : Char → Bool} :
    ∀ {l : Str} {c : Char} {t : Str}, l.dropWhile p = c :: t → p c = false := by
  intro l
  induction l with
  | nil => intro c t h; simp at h
  | cons x xs ih =>
    intro c t h
    rw [List.dropWhile_cons] at h
    by_cases hx : p x = true
    · exact ih (by rwa [if_pos hx] at h)
    · rw [if_neg hx] at h
      cases h
      simpa using hx

theorem getLast?_dropWhile {p : Char → Bool} :
    ∀ {l : Str}, l.dropWhile p ≠ [] → (l.dropWhile p).getLast? = l.getLast? := by
  intro l
  induction l with
  | nil => intro h; simp at h
  | cons c t ih =>
    intro h
    rw [List.dropWhile_cons]
    by_cases hc : p c = true
    · rw [List.dropWhile_cons, if_pos hc] at h
      rw [if_pos hc, ih h]
      have ht : t ≠ [] := by
        intro he
        exact h (by simp [he])
      cases t with
      | nil => exact absurd rfl ht
      | cons d u => rw [List.getLast?_cons_cons]
    · rw [if_neg hc]

/-! ## Helper lemmas about heading recognition -/

theorem isHeadingSrc_iff (l : Str) :
    isHeadingSrc l = true ↔ (l.dropWhile pyIsSpace).head? = some '#' := by
  unfold isHeadingSrc stripWs
  cases hm : l.dropWhile pyIsSpace with
  | nil => simp [startsWithHash, rdrop]
  | cons c t =>
    have hc : pyIsSpace c = false := dropWhile_head_not hm
    rw [rdrop_cons_of_not _ hc]
    simp [startsWithHash]

theorem isHeadingApp_iff (l : Str) : isHeadingApp l = true ↔ l.head? = some '#' := by
  cases l with
  | nil => simp [isHeadingApp, startsWithHash]
  | cons c t => simp [isHeadingApp, startsWithHash]

theorem isHeadingSrc_of_app {l : Str} (h : isHeadingApp l = true) :
    isHeadingSrc l = true := by
  rw [isHeadingApp_iff] at h
  rw [isHeadingSrc_iff]
  cases l with
  | nil => simp at h
  | cons c t =>
    simp at h
    subst h
    rw [List.dropWhile_cons, if_neg (by simp [pyIsSpace])]
    rfl

theorem isHeadingApp_eq_false {l : Str} (h : isHeadingSrc l = false) :
    isHeadingApp l = false := by
  cases ha : isHeadingApp l with
  | false => rfl
  | true => rw [isHeadingSrc_of_app ha] at h; cases h

/-! ## Helper lemmas about the Python dict model -/

theorem pyDictSet_of_not_mem {m : List (Str × Str)} {k v : Str}
    (h : k ∉ m.map Prod.fst) : pyDictSet m k v = m ++ [(k, v)] := by
  unfold pyDictSet
  rw [if_neg h]

theorem map_fst_pyDictSet (m : List (Str × Str)) (k v : Str) :
    (pyDictSet m k v).map Prod.fst =
      if k ∈ m.map Prod.fst then m.map Prod.fst else m.map Prod.fst ++ [k] := by
  unfold pyDictSet
  split
  · rw [List.map_map]
    apply List.map_congr_left
    intro p _
    by_cases hp : p.1 = k
    · simp [hp]
    · simp [hp]
  · simp

theorem nodup_keys_pyDictSet {m : List (Str × Str)} {k v : Str}
    (h : (m.map Prod.fst).Nodup) : ((pyDictSet m k v).map Prod.fst).Nodup := by
  rw [map_fst_pyDictSet]
  split
  · exact h
  · rename_i hk
    simp [List.nodup_append, h, hk]

theorem nodup_keys_commitSection {st : ParseSt}
    (h : (st.sections.map Prod.fst).Nodup) :
    ((commitSection st).map Prod.fst).Nodup := by
  unfold commitSection
  split
  · exact h
  · exact nodup_keys_pyDictSet h

/-! ## Helper lemmas about the parser loop -/

theorem foldl_parseStep_no_heading {isH : Str → Bool} {ttl : Str → Str} :
    ∀ (lines : List Str) (st : ParseSt), (∀ l ∈ lines, isH l = false) →
      lines.foldl (parseStep isH ttl) st = ⟨st.sections, st.current, st.content ++ lines⟩ := by
  intro lines
  induction lines with
  | nil => intro st _; simp
  | cons l ls ih =>
    intro st h
    rw [List.foldl_cons, parseStep, if_neg (by simp [h l (List.mem_cons_self l ls)])]
    rw [ih _ (fun x hx => h x (List.mem_cons_of_mem l hx))]
    simp

theorem nodup_keys_foldl_parseStep {isH : Str → Bool} {ttl : Str → Str} :
    ∀ (lines : List Str) (st : ParseSt), (st.sections.map Prod.fst).Nodup →
      (((lines.foldl (parseStep isH ttl) st).sections).map Prod.fst).Nodup := by
  intro lines
  induction lines with
  | nil => intro st h; exact h
  | cons l ls ih =>
    intro st h
    rw [List.foldl_cons]
    apply ih
    unfold parseStep
    split
    · exact nodup_keys_commitSection h
    · exact h

theorem nodup_keys_parseReportSections (isH : Str → Bool) (ttl : Str → Str)
    (input : Str) :
    ((parseReportSections isH ttl input).map Prod.fst).Nodup := by
  unfold parseReportSections
  dsimp only
  split
  · simp
  · exact nodup_keys_commitSection
      (nodup_keys_foldl_parseStep _ _ (by simp))

end DentAI


namespace DentAI

/-! ## Split/join round-trip facts -/

theorem splitLines_ne_nil (s : Str) : splitLines s ≠ [] := by
  unfold splitLines List.splitOn
  exact List.splitOnP_ne_nil _ _

theorem joinLines_splitLines (s : Str) : joinLines (splitLines s) = s :=
  List.intercalate_splitOn s '\n'

theorem splitLines_joinLines (ls : List Str) (h : ∀ l ∈ ls, ('\n' : Char) ∉ l)
    (hne : ls ≠ []) : splitLines (joinLines ls) = ls :=
  List.splitOn_intercalate ls '\n' h hne

/-! ## The committed result of a well-formed scan -/

theorem commitSection_nonempty {secs : List (Str × Str)} {t : Str} {b : List Str}
    (hb : b ≠ []) (ht : t ∉ secs.map Prod.fst) :
    commitSection ⟨secs, t, b⟩ = secs ++ [(t, joinLines b)] := by
  obtain ⟨x, xs, rfl⟩ := List.exists_cons_of_ne_nil hb
  unfold commitSection
  rw [if_neg (by simp)]
  exact pyDictSet_of_not_mem ht

theorem run_blocks {isH : Str → Bool} {ttl : Str → Str} :
    ∀ (rest : List (Str × List Str)) (b : List Str) (secs : List (Str × Str)) (t : Str),
      b ≠ [] →
      (∀ l ∈ b, isH l = false) →
      (∀ hb ∈ rest, isH hb.1 = true ∧ hb.2 ≠ [] ∧ ∀ l ∈ hb.2, isH l = false) →
      (t :: rest.map (fun hb => ttl hb.1)).Nodup →
      (∀ k ∈ t :: rest.map (fun hb => ttl hb.1), k ∉ secs.map Prod.fst) →
      commitSection ((b ++ ((rest.map fun hb => hb.1 :: hb.2).flatten)).foldl
          (parseStep isH ttl) ⟨secs, t, []⟩) =
        secs ++ (t, joinLines b) :: rest.map (fun hb => (ttl hb.1, joinLines hb.2)) := by
  intro rest
  induction rest with
  | nil =>
    intro b secs t hb hnb _ _ hfresh
    simp only [List.map_nil, List.flatten_nil, List.append_nil]
    rw [foldl_parseStep_no_heading b _ hnb]
    simp only [List.nil_append]
    rw [commitSection_nonempty hb (hfresh t (List.mem_cons_self _ _))]
  | cons hb1 rest ih =>
    intro b secs t hb hnb hrest hnd hfresh
    obtain ⟨h1, b1⟩ := hb1
    have hmem1 : (h1, b1) ∈ (h1, b1) :: rest := List.mem_cons_self _ _
    have hh1 : isH h1 = true := (hrest _ hmem1).1
    have hb1ne : b1 ≠ [] := (hrest _ hmem1).2.1
    have hb1nh : ∀ l ∈ b1, isH l = false := (hrest _ hmem1).2.2
    simp only [List.map_cons, List.flatten_cons]
    rw [show b ++ ((h1 :: b1) ++ (rest.map fun hb => hb.1 :: hb.2).flatten) =
          b ++ (h1 :: (b1 ++ (rest.map fun hb => hb.1 :: hb.2).flatten)) by simp]
    rw [List.foldl_append]
    rw [foldl_parseStep_no_heading b _ hnb]
    simp only [List.nil_append]
    rw [List.foldl_cons]
    rw [show parseStep isH ttl ⟨secs, t, b⟩ h1 =
          ⟨secs ++ [(t, joinLines b)], ttl h1, []⟩ by
      unfold parseStep
      rw [if_pos hh1, commitSection_nonempty hb (hfresh t (List.mem_cons_self _ _))]]
    rw [ih b1 (secs ++ [(t, joinLines b)]) (ttl h1) hb1ne hb1nh
      (fun x hx => hrest x (List.mem_cons_of_mem _ hx))
      (by
        have := hnd
        simp only [List.map_cons] at this
        exact this.of_cons)
      (by
        intro k hk
        rw [List.map_append, List.mem_append]
        push_neg
        constructor
        · apply hfresh
          simp only [List.map_cons]
          exact List.mem_cons_of_mem _ hk
        · intro hkt
          have hkt' : k = t := by simpa using hkt
          have hnd2 := hnd
          simp only [List.map_cons, List.nodup_cons] at hnd2
          exact hnd2.1 (hkt' ▸ hk))]
    simp [List.append_assoc]

end DentAI


namespace DentAI

/-! ## Agreement of the two parser copies on well-behaved lines -/

theorem headingTitle_agree {l : Str} (hl : l.getLast? ≠ some '#') :
    headingTitleApp l = headingTitleSrc l := by
  unfold headingTitleApp headingTitleSrc stripHash lstripHash
  congr 1
  cases hdw : l.dropWhile (· == '#') with
  | nil => rfl
  | cons c t =>
    apply rdrop_eq_self
    intro x hx
    have hne : l.dropWhile (· == '#') ≠ [] := by rw [hdw]; simp
    have hlast : (l.dropWhile (· == '#')).getLast? = l.getLast? :=
      getLast?_dropWhile hne
    rw [hdw] at hlast
    rw [hlast] at hx
    have hx' : x ≠ '#' := fun he => hl (he ▸ hx)
    simp [hx']

theorem parseStep_agree {l : Str} (h : agreeingLine l) (st : ParseSt) :
    parseStep isHeadingSrc headingTitleSrc st l =
      parseStep isHeadingApp headingTitleApp st l := by
  rcases h with hno | ⟨hh, hl⟩
  · have ha : isHeadingApp l = false := isHeadingApp_eq_false hno
    unfold parseStep
    rw [if_neg (by simp [hno]), if_neg (by simp [ha])]
  · have ha : isHeadingApp l = true := (isHeadingApp_iff l).mpr hh
    have hs : isHeadingSrc l = true := isHeadingSrc_of_app ha
    unfold parseStep
    rw [if_pos (by simp [hs]), if_pos (by simp [ha]), headingTitle_agree hl]

theorem foldl_parseStep_agree :
    ∀ (lines : List Str) (st : ParseSt), (∀ l ∈ lines, agreeingLine l) →
      lines.foldl (parseStep isHeadingSrc headingTitleSrc) st =
        lines.foldl (parseStep isHeadingApp headingTitleApp) st := by
  intro lines
  induction lines with
  | nil => intro st _; rfl
  | cons l ls ih =>
    intro st h
    rw [List.foldl_cons, List.foldl_cons, parseStep_agree (h l (List.mem_cons_self _ _))]
    exact ih _ (fun x hx => h x (List.mem_cons_of_mem _ hx))

/-! ## Characterisation of the findings loop -/

theorem foldl_append_flatten {α β : Type} (f : α → List β) :
    ∀ (l : List α) (init : List β),
      l.foldl (fun acc x => acc ++ f x) init = init ++ (l.map f).flatten := by
  intro l
  induction l with
  | nil => intro init; simp
  | cons x xs ih =>
    intro init
    rw [List.foldl_cons, ih]
    simp

theorem renderSections_eq (paras : Str → List Str) (sections : List (Str × Str)) :
    renderSections paras sections = (sections.map (sectionBlock paras)).flatten := by
  unfold renderSections
  rw [foldl_append_flatten]
  simp

theorem mem_renderSections_shape {paras : Str → List Str}
    {sections : List (Str × Str)} {e : Element}
    (h : e ∈ renderSections paras sections) :
    (∃ t, e = Element.par .sectionHeading t) ∨
      (∃ t, e = Element.par .reportText t) ∨ e = Element.spacer 1 10 := by
  rw [renderSections_eq, List.mem_flatten] at h
  obtain ⟨blk, hblk, he⟩ := h
  rw [List.mem_map] at hblk
  obtain ⟨sec, _, rfl⟩ := hblk
  unfold sectionBlock at he
  rcases List.mem_cons.mp he with rfl | he
  · exact Or.inl ⟨sec.1, rfl⟩
  · rcases List.mem_append.mp he with he | he
    · rw [List.mem_map] at he
      obtain ⟨p, _, rfl⟩ := he
      exact Or.inr (Or.inl ⟨p, rfl⟩)
    · simp at he
      exact Or.inr (Or.inr he)

theorem mem_createHeader_shape {logoPath : Option Str} {logoOk : Bool}
    {clinicName now : Str} {e : Element}
    (h : e ∈ createHeader logoPath logoOk clinicName now) :
    (∃ p, e = Element.image p 100 50) ∨ (∃ a b, e = Element.spacer a b) ∨
      e = Element.par .reportTitle clinicName ∨ (∃ t, e = Element.par .normal t) := by
  unfold createHeader at h
  rcases List.mem_append.mp h with h | h
  · split at h
    · rcases List.mem_cons.mp h with rfl | h
      · exact Or.inl ⟨_, rfl⟩
      · simp at h
        exact Or.inr (Or.inl ⟨1, 10, h⟩)
    · simp at h
  · rcases List.mem_cons.mp h with rfl | h
    · exact Or.inr (Or.inr (Or.inl rfl))
    · rcases List.mem_cons.mp h with rfl | h
      · exact Or.inr (Or.inl ⟨1, 10, rfl⟩)
      · rcases List.mem_cons.mp h with rfl | h
        · exact Or.inr (Or.inr (Or.inr ⟨_, rfl⟩))
        · simp at h
          exact Or.inr (Or.inl ⟨1, 20, h⟩)

theorem patientRows_ne_approvalRows (pi : PatientInfo) :
    patientRows pi ≠ approvalRows := by
  intro h
  have := congrArg List.length h
  simp [patientRows, approvalRows] at this

end DentAI


namespace DentAI

/-! ## Parser-level results -/

/-- Generic form of the no-heading case: when no line of the input passes
the heading test, the whole input is committed verbatim under
"Findings". -/
theorem parse_no_heading (isH : Str → Bool) (ttl : Str → Str) (input : Str)
    (h : ∀ l ∈ splitLines input, isH l = false) :
    parseReportSections isH ttl input = [(lit "Findings", input)] := by
  unfold parseReportSections
  dsimp only
  rw [foldl_parseStep_no_heading _ _ h]
  simp only [List.nil_append]
  rw [commitSection_nonempty (splitLines_ne_nil input) (by simp)]
  rw [joinLines_splitLines]
  simp

/-- Generic form of the well-formed-blocks case: the scan commits one
entry per block, in order, keyed by the extracted title and holding the
joined body lines. -/
theorem parse_blocks (isH : Str → Bool) (ttl : Str → Str)
    (blocks : List (Str × List Str)) (hne : blocks ≠ [])
    (hhead : ∀ hb ∈ blocks, isH hb.1 = true)
    (hbody : ∀ hb ∈ blocks, hb.2 ≠ [] ∧ ∀ l ∈ hb.2, isH l = false)
    (hnl : ∀ l ∈ (blocks.map fun hb => hb.1 :: hb.2).flatten, ('\n' : Char) ∉ l)
    (hnd : (blocks.map fun hb => ttl hb.1).Nodup) :
    parseReportSections isH ttl (blockInput blocks) =
      blocks.map fun hb => (ttl hb.1, joinLines hb.2) := by
  obtain ⟨hb0, rest, rfl⟩ := List.exists_cons_of_ne_nil hne
  obtain ⟨h0, b0⟩ := hb0
  unfold parseReportSections blockInput
  dsimp only
  rw [splitLines_joinLines _ hnl (by simp)]
  simp only [List.map_cons, List.flatten_cons]
  rw [List.cons_append, List.foldl_cons]
  rw [show parseStep isH ttl ⟨[], lit "Findings", []⟩ h0 = ⟨[], ttl h0, []⟩ by
    unfold parseStep
    rw [if_pos (hhead _ (List.mem_cons_self _ _))]
    rfl]
  rw [run_blocks rest b0 [] (ttl h0)
    (hbody _ (List.mem_cons_self _ _)).1
    (hbody _ (List.mem_cons_self _ _)).2
    (fun hb hm => ⟨hhead _ (List.mem_cons_of_mem _ hm),
      (hbody _ (List.mem_cons_of_mem _ hm)).1,
      (hbody _ (List.mem_cons_of_mem _ hm)).2⟩)
    (by simpa using hnd)
    (by simp)]
  simp

/-- Claim C3: for every input string containing no heading lines (no line
whose first non-space character is `'#'`), both copies of the Section
Parser return exactly one entry keyed "Findings" whose value equals the
input verbatim. -/
theorem claim3_no_heading_single_findings (input : Str)
    (h : ∀ l ∈ splitLines input, isHeadingSrc l = false) :
    parseSrc input = [(lit "Findings", input)] ∧
      parseApp input = [(lit "Findings", input)] :=
  ⟨parse_no_heading _ _ input h,
   parse_no_heading _ _ input (fun l hl => isHeadingApp_eq_false (h l hl))⟩

/-- Claim C3, witness: the empty string has no heading lines and parses
to `{"Findings": ""}` in both copies. -/
theorem claim3_witness :
    (∀ l ∈ splitLines (lit ""), isHeadingSrc l = false) ∧
      parseSrc (lit "") = [(lit "Findings", lit "")] ∧
      parseApp (lit "") = [(lit "Findings", lit "")] :=
  ⟨by decide, (claim3_no_heading_single_findings (lit "") (by decide)).1,
   (claim3_no_heading_single_findings (lit "") (by decide)).2⟩

/-- Claim C4 (amended): for every input made of N well-formed heading
lines (each starting with `'#'` in column 0), each followed by a
non-empty body of non-heading lines, with no content before the first
heading and with pairwise-distinct extracted titles, each parser copy
returns exactly N entries, in heading order, each body being the joined
lines between that heading and the next (or the end of input). Without
the distinct-titles hypothesis the claim fails
(`claim4_counterexample`). -/
theorem claim4_wellFormed_blocks (blocks : List (Str × List Str))
    (hne : blocks ≠ [])
    (hhead : ∀ hb ∈ blocks, isHeadingApp hb.1 = true)
    (hbody : ∀ hb ∈ blocks, hb.2 ≠ [] ∧ ∀ l ∈ hb.2, isHeadingSrc l = false)
    (hnl : ∀ l ∈ (blocks.map fun hb => hb.1 :: hb.2).flatten, ('\n' : Char) ∉ l)
    (hndSrc : (blocks.map fun hb => headingTitleSrc hb.1).Nodup)
    (hndApp : (blocks.map fun hb => headingTitleApp hb.1).Nodup) :
    parseSrc (blockInput blocks) =
        blocks.map (fun hb => (headingTitleSrc hb.1, joinLines hb.2)) ∧
      parseApp (blockInput blocks) =
        blocks.map (fun hb => (headingTitleApp hb.1, joinLines hb.2)) :=
  ⟨parse_blocks _ _ blocks hne
      (fun hb hm => isHeadingSrc_of_app (hhead hb hm)) hbody hnl hndSrc,
   parse_blocks _ _ blocks hne hhead
      (fun hb hm => ⟨(hbody hb hm).1,
        fun l hl => isHeadingApp_eq_false ((hbody hb hm).2 l hl)⟩)
      hnl hndApp⟩

/-- Claim C4, counterexample: two well-formed heading lines with the same
title, each followed by a non-empty body and with no content before the
first heading, yield one entry, not two — the second commit overwrites
the first, so the parser does not return exactly N entries. -/
theorem claim4_counterexample :
    splitLines (lit "# A\nx\n# A\ny") = [lit "# A", lit "x", lit "# A", lit "y"] ∧
    isHeadingSrc (lit "# A") = true ∧ isHeadingApp (lit "# A") = true ∧
    isHeadingSrc (lit "x") = false ∧ isHeadingSrc (lit "y") = false ∧
    headingTitleSrc (lit "# A") = lit "A" ∧ headingTitleApp (lit "# A") = lit "A" ∧
    parseSrc (lit "# A\nx\n# A\ny") = [(lit "A", lit "y")] ∧
    parseApp (lit "# A\nx\n# A\ny") = [(lit "A", lit "y")] ∧
    (parseSrc (lit "# A\nx\n# A\ny")).length = 1 := by decide

/-- Claim C4, witness: the spec's worked example (two distinct headings,
one body line each) parses to the two expected entries in order. -/
theorem claim4_witness :
    (exampleBlocks ≠ [] ∧
      (∀ hb ∈ exampleBlocks, isHeadingApp hb.1 = true) ∧
      (∀ hb ∈ exampleBlocks, hb.2 ≠ [] ∧ ∀ l ∈ hb.2, isHeadingSrc l = false) ∧
      (∀ l ∈ (exampleBlocks.map fun hb => hb.1 :: hb.2).flatten, ('\n' : Char) ∉ l) ∧
      (exampleBlocks.map fun hb => headingTitleSrc hb.1).Nodup ∧
      (exampleBlocks.map fun hb => headingTitleApp hb.1).Nodup) ∧
    parseSrc (blockInput exampleBlocks) =
      [(lit "Findings", lit "Possible cavity in lower left molar."),
       (lit "Recommendation", lit "Follow-up X-ray advised.")] := by
  refine ⟨⟨by decide, by decide, by decide, by decide, by decide, by decide⟩, ?_⟩
  rw [(claim4_wellFormed_blocks exampleBlocks (by decide) (by decide) (by decide)
    (by decide) (by decide) (by decide)).1]
  decide

/-- Claim C5 (amended): in the `src/src` copy a line starts a new section
iff its first non-space character is `'#'`, but the title keeps any `'#'`
characters that are not at the very start of the raw line, so the
indented line `"  ## Title"` starts a section titled `"## Title"`; in the
`src/app` copy a line starts a new section iff its very first character
is `'#'`, so the indented line starts no section at all. On an
unindented heading such as `"## Title"` both copies extract `"Title"`. -/
theorem claim5_heading_recognition (line : Str) :
    (isHeadingSrc line = true ↔ (line.dropWhile pyIsSpace).head? = some '#') ∧
    (isHeadingApp line = true ↔ line.head? = some '#') ∧
    headingTitleSrc (lit "  ## Title") = lit "## Title" ∧
    isHeadingApp (lit "  ## Title") = false ∧
    headingTitleSrc (lit "## Title") = lit "Title" ∧
    headingTitleApp (lit "## Title") = lit "Title" :=
  ⟨isHeadingSrc_iff line, isHeadingApp_iff line, by decide, by decide,
   by decide, by decide⟩

/-- Claim C5, counterexample: the claim's own example `"  ## Title"` does
not start a section titled `"Title"` in either copy — the `src/src` copy
titles it `"## Title"`, the `src/app` copy does not treat it as a heading
at all. -/
theorem claim5_counterexample :
    isHeadingSrc (lit "  ## Title") = true ∧
    headingTitleSrc (lit "  ## Title") ≠ lit "Title" ∧
    isHeadingApp (lit "  ## Title") = false ∧
    parseSrc (lit "  ## Title\nbody") = [(lit "## Title", lit "body")] ∧
    parseApp (lit "  ## Title\nbody") = [(lit "Findings", lit "  ## Title\nbody")] ∧
    lit "Title" ∉ (parseSrc (lit "  ## Title\nbody")).map Prod.fst ∧
    lit "Title" ∉ (parseApp (lit "  ## Title\nbody")).map Prod.fst := by decide

/-- Claim C9 (amended): the two copies of `_parse_report_sections`
compute the same mapping on every input whose lines each either are a
heading for neither copy, or start with `'#'` in column 0 and do not end
in `'#'`; in general the copies diverge (`claim9_counterexample`). -/
theorem claim9_copies_agree (input : Str)
    (h : ∀ l ∈ splitLines input, agreeingLine l) :
    parseSrc input = parseApp input := by
  unfold parseSrc parseApp parseReportSections
  dsimp only
  rw [foldl_parseStep_agree _ _ h]

/-- Claim C9, witness: on `"# A\nbody"` every line is well-behaved and
the two copies agree. -/
theorem claim9_witness :
    (∀ l ∈ splitLines (lit "# A\nbody"), agreeingLine l) ∧
      parseSrc (lit "# A\nbody") = parseApp (lit "# A\nbody") :=
  ⟨by decide, claim9_copies_agree _ (by decide)⟩

/-- Claim C9, counterexample: on the indented heading `"  # T"` the
`src/src` copy commits a section while the `src/app` copy keeps the line
as body text, so the two copies compute different mappings. -/
theorem claim9_counterexample :
    parseSrc (lit "  # T\nbody") = [(lit "# T", lit "body")] ∧
    parseApp (lit "  # T\nbody") = [(lit "Findings", lit "  # T\nbody")] ∧
    parseSrc (lit "  # T\nbody") ≠ parseApp (lit "  # T\nbody") := by decide

/-- Claim C10, counterexample: when the same heading title occurs on two
heading lines but no body line ever follows them, nothing is committed,
the dict stays empty, and the fallback fires — the result has no entry
for that title at all, contradicting "a single entry for that title". -/
theorem claim10_counterexample :
    splitLines (lit "# A\n# A") = [lit "# A", lit "# A"] ∧
    isHeadingSrc (lit "# A") = true ∧ isHeadingApp (lit "# A") = true ∧
    headingTitleSrc (lit "# A") = lit "A" ∧ headingTitleApp (lit "# A") = lit "A" ∧
    parseSrc (lit "# A\n# A") = [(lit "Findings", lit "# A\n# A")] ∧
    parseApp (lit "# A\n# A") = [(lit "Findings", lit "# A\n# A")] ∧
    lit "A" ∉ (parseSrc (lit "# A\n# A")).map Prod.fst ∧
    lit "A" ∉ (parseApp (lit "# A\n# A")).map Prod.fst := by decide

end DentAI


namespace DentAI

/-! ## Assembler-level results -/

/-- Claim C1: for every patient record, report text, clinic name and
variant, every page of the built document carries the exact regulatory
AI-generated-report disclaimer verbatim together with its page number:
all four generators install `_create_footer` as both the first-page and
later-pages callback, and that callback draws exactly those two
strings. -/
theorem claim1_disclaimer_on_every_page (logoPath : Option Str) (logoOk : Bool)
    (pi : PatientInfo) (reportContent clinicName now : Str) (n : Nat) :
    (regulatoryDisclaimer ∈
        pageOverlay (generateSummaryPdfSrc logoPath logoOk pi reportContent clinicName now) n ∧
      pageNumberText n ∈
        pageOverlay (generateSummaryPdfSrc logoPath logoOk pi reportContent clinicName now) n) ∧
    (regulatoryDisclaimer ∈
        pageOverlay (generateDetailedPdfSrc logoPath logoOk pi reportContent clinicName now) n ∧
      pageNumberText n ∈
        pageOverlay (generateDetailedPdfSrc logoPath logoOk pi reportContent clinicName now) n) ∧
    (regulatoryDisclaimer ∈
        pageOverlay (generateSummaryPdfApp logoPath logoOk pi reportContent clinicName now) n ∧
      pageNumberText n ∈
        pageOverlay (generateSummaryPdfApp logoPath logoOk pi reportContent clinicName now) n) ∧
    (regulatoryDisclaimer ∈
        pageOverlay (generateDetailedPdfApp logoPath logoOk pi reportContent clinicName now) n ∧
      pageNumberText n ∈
        pageOverlay (generateDetailedPdfApp logoPath logoOk pi reportContent clinicName now) n) := by
  have key : ∀ d : BuiltDoc, d.onFirstPage = createFooter →
      d.onLaterPages = createFooter →
      regulatoryDisclaimer ∈ pageOverlay d n ∧ pageNumberText n ∈ pageOverlay d n := by
    intro d h1 h2
    unfold pageOverlay
    rw [h1, h2]
    split <;> simp [createFooter]
  exact ⟨key _ rfl rfl, key _ rfl rfl, key _ rfl rfl, key _ rfl rfl⟩

theorem lit_isPrefixOf_append (p t : Str) : p.isPrefixOf (p ++ t) = true := by
  rw [List.isPrefixOf_iff_prefix]
  exact List.prefix_append p t

theorem scrubTimestamp_header (logoPath : Option Str) (logoOk : Bool)
    (clinicName : Str) (t1 t2 : Str) :
    (createHeader logoPath logoOk clinicName t1).map scrubTimestamp =
      (createHeader logoPath logoOk clinicName t2).map scrubTimestamp := by
  unfold createHeader
  rw [List.map_append, List.map_append]
  congr 1
  have h1 := lit_isPrefixOf_append (lit "Report Generated: ") t1
  have h2 := lit_isPrefixOf_append (lit "Report Generated: ") t2
  simp [scrubTimestamp, h1, h2]

/-- Claim C7: for fixed patient record, report text, clinic branding and
variant, two invocations of a generator differing only in the captured
`datetime.now()` value produce element streams that agree after the one
timestamp-bearing element is scrubbed, and identical per-page footer
overlays — the assembler is deterministic modulo the embedded generation
timestamp. -/
theorem claim7_deterministic_modulo_timestamp (logoPath : Option Str)
    (logoOk : Bool) (pi : PatientInfo) (reportContent clinicName t1 t2 : Str) :
    ((generateSummaryPdfSrc logoPath logoOk pi reportContent clinicName t1).elements.map scrubTimestamp =
      (generateSummaryPdfSrc logoPath logoOk pi reportContent clinicName t2).elements.map scrubTimestamp) ∧
    ((generateDetailedPdfSrc logoPath logoOk pi reportContent clinicName t1).elements.map scrubTimestamp =
      (generateDetailedPdfSrc logoPath logoOk pi reportContent clinicName t2).elements.map scrubTimestamp) ∧
    ((generateSummaryPdfApp logoPath logoOk pi reportContent clinicName t1).elements.map scrubTimestamp =
      (generateSummaryPdfApp logoPath logoOk pi reportContent clinicName t2).elements.map scrubTimestamp) ∧
    ((generateDetailedPdfApp logoPath logoOk pi reportContent clinicName t1).elements.map scrubTimestamp =
      (generateDetailedPdfApp logoPath logoOk pi reportContent clinicName t2).elements.map scrubTimestamp) ∧
    (∀ n, pageOverlay (generateSummaryPdfSrc logoPath logoOk pi reportContent clinicName t1) n =
      pageOverlay (generateSummaryPdfSrc logoPath logoOk pi reportContent clinicName t2) n) := by
  refine ⟨?_, ?_, ?_, ?_, fun n => rfl⟩ <;>
  · simp only [generateSummaryPdfSrc, generateDetailedPdfSrc,
      generateSummaryPdfApp, generateDetailedPdfApp, List.map_append]
    rw [scrubTimestamp_header]

/-- Claim C2 (amended): a patient field absent from the dict renders as
the literal "N/A" and no row is ever omitted (the table always has its
five rows, and the generator is a total function), but a field present
with any value — including the empty string — renders that value itself:
`dict.get` substitutes the default only for a missing key, so an empty
complaint or medical history shows as an empty cell, not "N/A". -/
theorem claim2_patient_table (pi : PatientInfo) :
    (patientRows pi).length = 5 ∧
    (pi.name = none → patientCell pi 0 = lit "N/A") ∧
    (pi.age = none → patientCell pi 1 = lit "N/A") ∧
    (pi.gender = none → patientCell pi 2 = lit "N/A") ∧
    (pi.complaint = none → patientCell pi 3 = lit "N/A") ∧
    (pi.medical_history = none → patientCell pi 4 = lit "N/A") ∧
    (∀ v, pi.complaint = some v → patientCell pi 3 = v) ∧
    (∀ v, pi.medical_history = some v → patientCell pi 4 = v) := by
  refine ⟨rfl, ?_, ?_, ?_, ?_, ?_, ?_, ?_⟩
  · intro h; simp [patientCell, patientRows, h]
  · intro h; simp [patientCell, patientRows, h]
  · intro h; simp [patientCell, patientRows, h]
  · intro h; simp [patientCell, patientRows, h]
  · intro h; simp [patientCell, patientRows, h]
  · intro v h; simp [patientCell, patientRows, h]
  · intro v h; simp [patientCell, patientRows, h]

/-- Claim C2, witness: a dict with the name key missing and the complaint
key present-but-empty renders "N/A" for the name and the empty cell for
the complaint. -/
theorem claim2_witness :
    ((⟨none, some (lit "34"), none, some (lit ""), none⟩ : PatientInfo).name = none ∧
      (⟨none, some (lit "34"), none, some (lit ""), none⟩ : PatientInfo).complaint =
        some (lit "")) ∧
    patientCell ⟨none, some (lit "34"), none, some (lit ""), none⟩ 0 = lit "N/A" ∧
    patientCell ⟨none, some (lit "34"), none, some (lit ""), none⟩ 3 = lit "" :=
  ⟨⟨rfl, rfl⟩,
   (claim2_patient_table _).2.1 rfl,
   (claim2_patient_table _).2.2.2.2.2.2.1 (lit "") rfl⟩

/-- Claim C2, counterexample: the spec's scenario (empty complaint and
empty medical history) renders empty cells, not "N/A" — `dict.get(key,
default)` substitutes the default only when the key is missing. -/
theorem claim2_counterexample :
    patientCell ⟨some (lit "Jane Doe"), some (lit "34"), some (lit "Female"),
      some (lit ""), some (lit "")⟩ 3 = lit "" ∧
    patientCell ⟨some (lit "Jane Doe"), some (lit "34"), some (lit "Female"),
      some (lit ""), some (lit "")⟩ 3 ≠ lit "N/A" ∧
    patientCell ⟨some (lit "Jane Doe"), some (lit "34"), some (lit "Female"),
      some (lit ""), some (lit "")⟩ 4 ≠ lit "N/A" := by decide

theorem renderSections_decomp {paras : Str → List Str}
    {sections : List (Str × Str)} {t c : Str} (h : (t, c) ∈ sections) :
    ∃ pre post, renderSections paras sections =
      pre ++ Element.par .sectionHeading t ::
        ((paras c).map (Element.par .reportText) ++ Element.spacer 1 10 :: post) := by
  obtain ⟨s, u, rfl⟩ := List.append_of_mem h
  refine ⟨(s.map (sectionBlock paras)).flatten, (u.map (sectionBlock paras)).flatten, ?_⟩
  rw [renderSections_eq]
  rw [List.map_append, List.flatten_append, List.map_cons, List.flatten_cons]
  unfold sectionBlock
  simp

theorem heading_mem_renderSections {paras : Str → List Str}
    {sections : List (Str × Str)} {t c : Str} (h : (t, c) ∈ sections) :
    Element.par .sectionHeading t ∈ renderSections paras sections := by
  obtain ⟨pre, post, heq⟩ := renderSections_decomp h
  rw [heq]
  simp

/-- Claim C8: for every entry of the parsed sections, the findings loop
of each copy renders the entry as its title heading followed by one text
block per non-blank-after-trim paragraph of the body, in order, then a
spacer; in particular an entry whose body has no non-blank paragraph
still renders its heading (the paragraph list is empty and only the
heading and spacer remain). -/
theorem claim8_findings_blocks (sections : List (Str × Str)) (t c : Str)
    (h : (t, c) ∈ sections) :
    (∃ pre post, renderSections sectionParagraphsSrc sections =
        pre ++ Element.par .sectionHeading t ::
          ((sectionParagraphsSrc c).map (Element.par .reportText) ++
            Element.spacer 1 10 :: post)) ∧
    (∃ pre post, renderSections sectionParagraphsApp sections =
        pre ++ Element.par .sectionHeading t ::
          ((sectionParagraphsApp c).map (Element.par .reportText) ++
            Element.spacer 1 10 :: post)) ∧
    Element.par .sectionHeading t ∈ renderSections sectionParagraphsSrc sections ∧
    Element.par .sectionHeading t ∈ renderSections sectionParagraphsApp sections :=
  ⟨renderSections_decomp h, renderSections_decomp h,
   heading_mem_renderSections h, heading_mem_renderSections h⟩

/-- Claim C8, witness: a section whose body consists only of blank
paragraphs has an empty kept-paragraph list in both copies, yet its
heading is still rendered. -/
theorem claim8_witness :
    ((lit "Empty", lit "  \n\n\t") ∈ [((lit "Empty" : Str), (lit "  \n\n\t" : Str))] ∧
      sectionParagraphsApp (lit "  \n\n\t") = [] ∧
      sectionParagraphsSrc (lit "  \n\n\t") = []) ∧
    Element.par .sectionHeading (lit "Empty") ∈
      renderSections sectionParagraphsApp [(lit "Empty", lit "  \n\n\t")] :=
  ⟨⟨by decide, by decide, by decide⟩,
   (claim8_findings_blocks [(lit "Empty", lit "  \n\n\t")] (lit "Empty")
     (lit "  \n\n\t") (by decide)).2.2.2⟩

end DentAI


namespace DentAI

/-- Claim C6 (spec-modelled): with `include-signature-block` false and the
Summary variant, the assembled document contains no signature-block
content — no "Doctor's Signature" line, no "Date" line, no approval
option rows: the signature/approval block is skipped entirely, and no
other part of the layout produces such elements. -/
theorem claim6_no_signature_when_disabled (logoPath : Option Str) (logoOk : Bool)
    (pi : PatientInfo) (reportContent clinicName now : Str)
    (opts : DocumentOptions) (h : opts.include_signature_block = false) :
    Element.par .footer (lit "Doctor's Signature") ∉
        (generateSummaryPdfWithOptions logoPath logoOk pi reportContent
          clinicName now opts).elements ∧
    Element.par .footer (lit "Date") ∉
        (generateSummaryPdfWithOptions logoPath logoOk pi reportContent
          clinicName now opts).elements ∧
    Element.table approvalRows ∉
        (generateSummaryPdfWithOptions logoPath logoOk pi reportContent
          clinicName now opts).elements := by
  have core : ∀ e ∈ (generateSummaryPdfWithOptions logoPath logoOk pi
      reportContent clinicName now opts).elements,
      (∃ p, e = Element.image p 100 50) ∨ (∃ a b, e = Element.spacer a b) ∨
      (∃ t, e = Element.par .reportTitle t) ∨ (∃ t, e = Element.par .normal t) ∨
      (∃ t, e = Element.par .sectionHeading t) ∨
      (∃ t, e = Element.par .reportText t) ∨
      e = Element.table (patientRows pi) := by
    intro e he
    unfold generateSummaryPdfWithOptions at he
    dsimp only at he
    rw [if_neg (by simp [h]), List.append_nil] at he
    rcases List.mem_append.mp he with he | he
    · rcases List.mem_append.mp he with he | he
      · rcases List.mem_append.mp he with he | he
        · rcases mem_createHeader_shape he with ⟨p, rfl⟩ | ⟨a, b, rfl⟩ | rfl | ⟨t, rfl⟩
          · exact Or.inl ⟨p, rfl⟩
          · exact Or.inr (Or.inl ⟨a, b, rfl⟩)
          · exact Or.inr (Or.inr (Or.inl ⟨clinicName, rfl⟩))
          · exact Or.inr (Or.inr (Or.inr (Or.inl ⟨t, rfl⟩)))
        · rcases List.mem_cons.mp he with rfl | he
          · exact Or.inr (Or.inr (Or.inl ⟨_, rfl⟩))
          · simp at he
            exact Or.inr (Or.inl ⟨1, 10, he⟩)
      · unfold createPatientInfoSection at he
        rcases List.mem_cons.mp he with rfl | he
        · exact Or.inr (Or.inr (Or.inr (Or.inr (Or.inl ⟨_, rfl⟩))))
        · rcases List.mem_cons.mp he with rfl | he
          · exact Or.inr (Or.inr (Or.inr (Or.inr (Or.inr (Or.inr rfl)))))
          · simp at he
            exact Or.inr (Or.inl ⟨1, 15, he⟩)
    · unfold createFindingsApp at he
      rcases mem_renderSections_shape he with ⟨t, rfl⟩ | ⟨t, rfl⟩ | rfl
      · exact Or.inr (Or.inr (Or.inr (Or.inr (Or.inl ⟨t, rfl⟩))))
      · exact Or.inr (Or.inr (Or.inr (Or.inr (Or.inr (Or.inl ⟨t, rfl⟩)))))
      · exact Or.inr (Or.inl ⟨1, 10, rfl⟩)
  refine ⟨?_, ?_, ?_⟩
  · intro hmem
    rcases core _ hmem with ⟨p, hp⟩ | ⟨a, b, hab⟩ | ⟨t, ht⟩ | ⟨t, ht⟩ | ⟨t, ht⟩ |
      ⟨t, ht⟩ | ht <;> simp_all
  · intro hmem
    rcases core _ hmem with ⟨p, hp⟩ | ⟨a, b, hab⟩ | ⟨t, ht⟩ | ⟨t, ht⟩ | ⟨t, ht⟩ |
      ⟨t, ht⟩ | ht <;> simp_all
  · intro hmem
    rcases core _ hmem with ⟨p, hp⟩ | ⟨a, b, hab⟩ | ⟨t, ht⟩ | ⟨t, ht⟩ | ⟨t, ht⟩ |
      ⟨t, ht⟩ | ht
    · simp_all
    · simp_all
    · simp_all
    · simp_all
    · simp_all
    · simp_all
    · have : approvalRows = patientRows pi := by
        injection ht
      exact patientRows_ne_approvalRows pi this.symm

/-- Claim C6, witness: a concrete Summary build with the flag off contains
no "Doctor's Signature" element. -/
theorem claim6_witness :
    ((⟨false, false⟩ : DocumentOptions).include_signature_block = false) ∧
    Element.par .footer (lit "Doctor's Signature") ∉
      (generateSummaryPdfWithOptions none false ⟨none, none, none, none, none⟩
        (lit "All good.") (lit "Clinic") (lit "today") ⟨false, false⟩).elements :=
  ⟨rfl, (claim6_no_signature_when_disabled none false ⟨none, none, none, none, none⟩
    (lit "All good.") (lit "Clinic") (lit "today") ⟨false, false⟩ rfl).1⟩

end DentAI


namespace DentAI

/-! ## Insertion-ordered-dict semantics of the commit sequence -/

theorem getLast?_cons_getD {α : Type} :
    ∀ (l : List α) (a d : α), ((a :: l).getLast?).getD d = (l.getLast?).getD a := by
  intro l
  induction l with
  | nil => intro a d; rfl
  | cons b t ih =>
    intro a d
    rw [List.getLast?_cons_cons]
    rw [ih b d, ih b a]

theorem pyDictSet_nil (k v : Str) : pyDictSet [] k v = [(k, v)] := by
  simp [pyDictSet]

theorem foldl_pyDictSet_cons :
    ∀ (t : List (Str × Str)) (m : List (Str × Str)) (k w : Str),
      k ∉ m.map Prod.fst →
      t.foldl (fun m kv => pyDictSet m kv.1 kv.2) ((k, w) :: m) =
        (k, (((t.filter fun p => decide (p.1 = k)).getLast?).getD (k, w)).2) ::
          (t.filter fun p => decide (p.1 ≠ k)).foldl
            (fun m kv => pyDictSet m kv.1 kv.2) m := by
  intro t
  induction t with
  | nil =>
    intro m k w hk
    simp
  | cons p t ih =>
    intro m k w hk
    obtain ⟨k1, v⟩ := p
    rw [List.foldl_cons]
    by_cases hkk : k1 = k
    · subst hkk
      have hmapm : List.map (fun p => if p.1 = k1 then (k1, v) else p) m = m := by
        have h1 : ∀ p ∈ m, (if p.1 = k1 then (k1, v) else p) = p := by
          intro p hp
          rw [if_neg]
          intro he
          exact hk (he ▸ List.mem_map_of_mem Prod.fst hp)
        rw [List.map_congr_left h1]
        simp
      have hset : pyDictSet ((k1, w) :: m) k1 v = (k1, v) :: m := by
        unfold pyDictSet
        rw [if_pos (by simp)]
        simp [hmapm]
      rw [hset, ih m k1 v hk]
      have hval : ((((k1, v) :: t).filter fun p => decide (p.1 = k1)).getLast?).getD (k1, w) =
          ((t.filter fun p => decide (p.1 = k1)).getLast?).getD (k1, v) := by
        rw [List.filter_cons, if_pos (by simp), getLast?_cons_getD]
      have hfil : ((k1, v) :: t).filter (fun p => decide (p.1 ≠ k1)) =
          t.filter (fun p => decide (p.1 ≠ k1)) := by
        rw [List.filter_cons, if_neg (by simp)]
      rw [hval, hfil]
    · have hset : pyDictSet ((k, w) :: m) k1 v = (k, w) :: pyDictSet m k1 v := by
        unfold pyDictSet
        by_cases hmem : k1 ∈ m.map Prod.fst
        · rw [if_pos (by simp [hmem]), if_pos hmem]
          simp only [List.map_cons]
          rw [if_neg (fun he => hkk he.symm)]
        · rw [if_neg (by simp [hmem, hkk]), if_neg hmem]
          rfl
      have hk' : k ∉ (pyDictSet m k1 v).map Prod.fst := by
        rw [map_fst_pyDictSet]
        split
        · exact hk
        · simp only [List.mem_append, List.mem_singleton]
          push_neg
          exact ⟨hk, fun he => hkk he.symm⟩
      rw [hset, ih (pyDictSet m k1 v) k w hk']
      have hval : (((k1, v) :: t).filter fun p => decide (p.1 = k)).getLast? =
          (t.filter fun p => decide (p.1 = k)).getLast? := by
        rw [List.filter_cons, if_neg (by simp [hkk])]
      have hfil : ((k1, v) :: t).filter (fun p => decide (p.1 ≠ k)) =
          (k1, v) :: t.filter (fun p => decide (p.1 ≠ k)) := by
        rw [List.filter_cons, if_pos (by simp [hkk])]
      rw [hval, hfil, List.foldl_cons]

theorem pyDictOfCommits_eq_collapseCommits_aux :
    ∀ (n : Nat) (l : List (Str × Str)), l.length ≤ n →
      pyDictOfCommits l = collapseCommits l := by
  intro n
  induction n with
  | zero =>
    intro l hl
    have h0 : l = [] := List.eq_nil_of_length_eq_zero (Nat.le_zero.mp hl)
    subst h0
    rw [collapseCommits]
    rfl
  | succ n ih =>
    intro l hl
    cases l with
    | nil =>
      rw [collapseCommits]
      rfl
    | cons p t =>
      obtain ⟨k, v⟩ := p
      have hstep : pyDictOfCommits ((k, v) :: t) =
          t.foldl (fun m kv => pyDictSet m kv.1 kv.2) [(k, v)] := by
        unfold pyDictOfCommits
        rw [List.foldl_cons]
        rw [show pyDictSet [] (k, v).1 (k, v).2 = [(k, v)] from pyDictSet_nil k v]
      rw [hstep, foldl_pyDictSet_cons t [] k v (by simp), collapseCommits]
      have hval : ((((k, v) :: t).filter fun p => decide (p.1 = k)).getLast?).getD (k, v) =
          ((t.filter fun p => decide (p.1 = k)).getLast?).getD (k, v) := by
        rw [List.filter_cons, if_pos (by simp), getLast?_cons_getD]
      rw [hval]
      have htail : (t.filter fun p => decide (p.1 ≠ k)).foldl
          (fun m kv => pyDictSet m kv.1 kv.2) [] =
          collapseCommits (t.filter fun p => decide (p.1 ≠ k)) := by
        have := ih (t.filter fun p => decide (p.1 ≠ k))
          (le_trans (List.length_filter_le _ _) (Nat.le_of_succ_le_succ hl))
        exact this
      rw [htail]

theorem pyDictOfCommits_eq_collapseCommits (l : List (Str × Str)) :
    pyDictOfCommits l = collapseCommits l :=
  pyDictOfCommits_eq_collapseCommits_aux l.length l (Nat.le_refl _)

/-! ## The parser result is the replay of its commit sequence -/

theorem commitSection_foldl_eq_commits {isH : Str → Bool} {ttl : Str → Str} :
    ∀ (lines : List Str) (st : ParseSt),
      commitSection (lines.foldl (parseStep isH ttl) st) =
        (commitsAux isH ttl st.current st.content lines).foldl
          (fun m kv => pyDictSet m kv.1 kv.2) st.sections := by
  intro lines
  induction lines with
  | nil =>
    intro st
    by_cases h : st.content.isEmpty
    · simp [commitSection, commitsAux, h]
    · simp [commitSection, commitsAux, h]
  | cons l ls ih =>
    intro st
    rw [List.foldl_cons]
    by_cases hl : isH l = true
    · rw [show parseStep isH ttl st l =
          ⟨commitSection st, ttl l, []⟩ from by unfold parseStep; rw [if_pos hl]]
      rw [ih]
      dsimp only
      rw [show commitsAux isH ttl st.current st.content (l :: ls) =
            (if st.content.isEmpty then [] else [(st.current, joinLines st.content)]) ++
              commitsAux isH ttl (ttl l) [] ls from by rw [commitsAux, if_pos hl]]
      rw [List.foldl_append]
      congr 1
      by_cases h : st.content.isEmpty
      · simp [commitSection, h]
      · simp [commitSection, h]
    · rw [show parseStep isH ttl st l =
          ⟨st.sections, st.current, st.content ++ [l]⟩ from by
        unfold parseStep; rw [if_neg hl]]
      rw [ih]
      dsimp only
      rw [show commitsAux isH ttl st.current st.content (l :: ls) =
            commitsAux isH ttl st.current (st.content ++ [l]) ls from by
          rw [commitsAux, if_neg hl]]

theorem parse_eq_collapseCommits (isH : Str → Bool) (ttl : Str → Str) (input : Str) :
    parseReportSections isH ttl input =
      if parseCommits isH ttl input = [] then [(lit "Findings", input)]
      else collapseCommits (parseCommits isH ttl input) := by
  unfold parseReportSections
  dsimp only
  rw [commitSection_foldl_eq_commits]
  dsimp only
  rw [show (commitsAux isH ttl (lit "Findings") [] (splitLines input)).foldl
        (fun m kv => pyDictSet m kv.1 kv.2) [] =
      pyDictOfCommits (parseCommits isH ttl input) from rfl]
  rw [pyDictOfCommits_eq_collapseCommits]
  cases hc : parseCommits isH ttl input with
  | nil =>
    rw [collapseCommits]
    simp
  | cons x t =>
    obtain ⟨k, v⟩ := x
    rw [collapseCommits]
    simp

end DentAI

namespace DentAI

/-- Claim C10 (amended): for every input, the mapping either parser copy
returns has pairwise-distinct titles, so a heading title occurring on
several heading lines yields at most one entry and the result can have
strictly fewer entries than heading lines; moreover each copy's result
is exactly: the whole-input "Findings" fallback when the scan commits
nothing, and otherwise one entry per distinct committed title,
positioned where the title was first committed and holding the body
committed last — later commits overwrite earlier bodies in place
(`collapseCommits` of the scan's commit sequence `parseCommits`). A
concrete conjunct shows the duplicate-title case: two commits under
"T" leave the single entry with the last body. Only when no body is
ever committed is the title absent (`claim10_counterexample`). -/
theorem claim10_duplicate_titles :
    (∀ input : Str,
      ((parseSrc input).map Prod.fst).Nodup ∧
      ((parseApp input).map Prod.fst).Nodup ∧
      parseSrc input =
        (if parseCommits isHeadingSrc headingTitleSrc input = []
          then [(lit "Findings", input)]
          else collapseCommits (parseCommits isHeadingSrc headingTitleSrc input)) ∧
      parseApp input =
        (if parseCommits isHeadingApp headingTitleApp input = []
          then [(lit "Findings", input)]
          else collapseCommits (parseCommits isHeadingApp headingTitleApp input))) ∧
    parseCommits isHeadingSrc headingTitleSrc (lit "## T\na\n## T\nb") =
      [(lit "T", lit "a"), (lit "T", lit "b")] ∧
    parseSrc (lit "## T\na\n## T\nb") = [(lit "T", lit "b")] ∧
    parseApp (lit "## T\na\n## T\nb") = [(lit "T", lit "b")] ∧
    (parseSrc (lit "## T\na\n## T\nb")).length = 1 :=
  ⟨fun input => ⟨nodup_keys_parseReportSections _ _ input,
     nodup_keys_parseReportSections _ _ input,
     parse_eq_collapseCommits _ _ input,
     parse_eq_collapseCommits _ _ input⟩,
   by decide, by decide, by decide, by decide⟩

end DentAI
